import Mathlib

/-!
Verification of the Caffe2 CI build-matrix generator
(`caffe2_build_definitions.py`): the configuration tree, the expansion
into configuration records, job naming, environment/yaml materialization,
and the workflow list.
-/

/-- Modelled from the spec: `cimodel.conf_tree.Ver` is not under `src/`.
A versioned component (distribution or compiler identity): a name plus an
optional version string; its printable form is name+version, or the name
alone when there is no version. -/
structure Ver where
  name : String
  version : Option String
deriving DecidableEq

/-- Printable form of a `Ver` (Python `str(...)`). -/
def Ver.str (v : Ver) : String :=
  v.name ++ v.version.getD ""

/-- Modelled from the spec: `cimodel.dimensions.PHASES` is not under `src/`;
the spec fixes the phase list to the compiling phase "build" and the
exercising phase "test". -/
def PHASES : List String := ["build", "test"]

/-- Modelled from the spec: `cimodel.miniutils.quote` is not under `src/`;
the spec describes it as a string-quoting helper, wrapping a string in
double quotes. -/
def quote (s : String) : String :=
  "\"" ++ s ++ "\""

/-- Modelled from the spec: `cimodel.miniutils.override` is not under `src/`;
it applies a substitution table to a word, returning the substituted value
when the word is a key of the table and the word itself otherwise. -/
def override (word : String) (substitutions : List (String × String)) : String :=
  match substitutions.find? (fun p => p.1 == word) with
  | some p => p.2
  | none => word

def DOCKER_IMAGE_PATH_BASE : String :=
  "308535385114.dkr.ecr.us-east-1.amazonaws.com/caffe2/"

def DOCKER_IMAGE_VERSION : Nat := 248

/-- The static configuration tree `CONFIG_HIERARCHY`:
distribution → list of (compiler, language variants). -/
def CONFIG_HIERARCHY : List (Ver × List (Ver × List String)) :=
  [ (⟨"ubuntu", some "14.04"⟩,
      [ (⟨"gcc", some "4.8"⟩, ["py2"]),
        (⟨"gcc", some "4.9"⟩, ["py2"]) ]),
    (⟨"ubuntu", some "16.04"⟩,
      [ (⟨"cuda", some "8.0"⟩, ["py2"]),
        (⟨"cuda", some "9.0"⟩, ["py2", "cmake"]),
        (⟨"cuda", some "9.1"⟩, ["py2"]),
        (⟨"mkl", none⟩, ["py2"]),
        (⟨"gcc", some "5"⟩, ["onnx_py2"]),
        (⟨"clang", some "3.8"⟩, ["py2"]),
        (⟨"clang", some "3.9"⟩, ["py2"]),
        (⟨"clang", some "7"⟩, ["py2"]),
        (⟨"android", none⟩, ["py2"]) ]),
    (⟨"centos", some "7"⟩,
      [ (⟨"cuda", some "9.0"⟩, ["py2"]) ]),
    (⟨"macos", some "10.13"⟩,
      [ (⟨"ios", none⟩, ["py2"]),
        (⟨"system", none⟩, ["py2"]) ]) ]

/-- A configuration record (`Conf`): language variant, distribution,
compiler, phase. -/
structure Conf where
  language : String
  distro : Ver
  compiler : Ver
  phase : String
deriving DecidableEq

/-- `Conf.get_platform`: "macos" when the distribution name is "macos",
otherwise "linux". -/
def Conf.get_platform (c : Conf) : String :=
  if c.distro.name == "macos" then "macos" else "linux"

/-- `Conf.is_build_only`: the compiler's printable form is one of the fixed
set, or the platform is "macos". -/
def Conf.is_build_only (c : Conf) : Bool :=
  ["gcc4.9", "clang3.8", "clang3.9", "clang7", "android"].contains c.compiler.str
    || c.get_platform == "macos"

/-- `Conf.get_cudnn_insertion`: omit the "cudnn7" tag when the language is
"onnx_py2", or the compiler name is android/mkl/clang, or the distribution's
printable form is ubuntu14.04 or macos10.13. -/
def Conf.get_cudnn_insertion (c : Conf) : List String :=
  let omitTag := c.language == "onnx_py2"
    || ["android", "mkl", "clang"].contains c.compiler.name
    || ["ubuntu14.04", "macos10.13"].contains c.distro.str
  if omitTag then [] else ["cudnn7"]

/-- `Conf.get_build_name_middle_parts`: compiler, optional cudnn tag,
distribution. -/
def Conf.get_build_name_middle_parts (c : Conf) : List String :=
  [c.compiler.str] ++ c.get_cudnn_insertion ++ [c.distro.str]

/-- `Conf.get_build_name_root_parts`: "caffe2", language, middle parts. -/
def Conf.get_build_name_root_parts (c : Conf) : List String :=
  ["caffe2", c.language] ++ c.get_build_name_middle_parts

/-- Python's `str.replace(".", "_")` for the single-character pattern ".":
every dot of the string becomes an underscore. -/
def replaceDots (s : String) : String :=
  String.mk (s.data.map (fun ch => if ch == '.' then '_' else ch))

/-- `Conf.construct_phase_name`: join root parts and the phase with "_",
then turn dots into underscores. -/
def Conf.construct_phase_name (c : Conf) (phase : String) : String :=
  replaceDots (String.intercalate "_" (c.get_build_name_root_parts ++ [phase]))

/-- `Conf.get_name`: the phase name for the record's own phase. -/
def Conf.get_name (c : Conf) : String :=
  c.construct_phase_name c.phase

/-- `Conf.gen_docker_image`: language (after the py2 substitutions) and the
middle parts joined with "-", prefixed by the docker path base, suffixed by
the image version, quoted. -/
def Conf.gen_docker_image (c : Conf) : String :=
  let lang := override c.language [("onnx_py2", "py2"), ("cmake", "py2")]
  let parts := [lang] ++ c.get_build_name_middle_parts
  quote (DOCKER_IMAGE_PATH_BASE ++ String.intercalate "-" parts
    ++ ":" ++ toString DOCKER_IMAGE_VERSION)

/-- A value of the generated yaml tree: either a plain string or a nested
ordered environment mapping. -/
inductive YamlVal where
  | str (s : String)
  | env (kvs : List (String × String))
deriving DecidableEq

/-- The ordered environment mapping built by `Conf.gen_yaml_tree`
(the `tuples` accumulation, in order). -/
def Conf.gen_env_tuples (c : Conf) : List (String × String) :=
  let lang := override c.language [("onnx_py2", "onnx-py2")]
  let parts := ["caffe2", lang] ++ c.get_build_name_middle_parts ++ [c.phase]
  let build_env0 := String.intercalate "-" parts
  let build_env := if !(c.distro.name == "macos") then quote build_env0 else build_env0
  [("BUILD_ENVIRONMENT", build_env)]
    ++ (if c.compiler.name == "ios" then [("BUILD_IOS", quote "1")] else [])
    ++ (if c.phase == "test" && c.compiler.name == "cuda"
        then [("USE_CUDA_DOCKER_RUNTIME", quote "1")] else [])
    ++ (if !(c.distro.name == "macos")
        then [("DOCKER_IMAGE", c.gen_docker_image)] else [])
    ++ (if c.is_build_only && !(c.distro.name == "macos")
        then [("BUILD_ONLY", quote "1")] else [])
    ++ (if c.distro.name == "macos"
        then [("PYTHON_INSTALLATION", quote "system"), ("PYTHON_VERSION", quote "2")]
        else [])

/-- `Conf.gen_yaml_tree`: the ordered mapping with the environment, the
conditional resource class for test phases, and the defaults anchor. -/
def Conf.gen_yaml_tree (c : Conf) : List (String × YamlVal) :=
  [("environment", YamlVal.env c.gen_env_tuples)]
    ++ (if c.phase == "test"
        then [("resource_class",
          YamlVal.str (if c.compiler.name != "cuda" then "large" else "gpu.medium"))]
        else [])
    ++ [("<<", YamlVal.str ("*" ++ String.intercalate "_"
          ["caffe2", c.get_platform, c.phase, "defaults"]))]

/-- `gen_build_list`: walk the tree (distribution, compiler, language,
phase) and keep a record unless the phase is not "build" and the record is
build-only. -/
def gen_build_list : List Conf :=
  CONFIG_HIERARCHY.flatMap (fun dc =>
    dc.2.flatMap (fun cl =>
      cl.2.flatMap (fun language =>
        PHASES.filterMap (fun phase =>
          let c : Conf := ⟨language, dc.1, cl.1, phase⟩
          if phase == "build" || !c.is_build_only then some c else none))))

/-- Python dict assignment `d[k] = v`: replace the value in place when the
key is present, append otherwise. -/
def dictInsert {β : Type} (d : List (String × β)) (k : String) (v : β) :
    List (String × β) :=
  if d.any (fun p => p.1 == k) then
    d.map (fun p => if p.1 == k then (k, v) else p)
  else
    d ++ [(k, v)]

/-- `add_caffe2_builds`: assign each generated record's yaml tree into the
jobs dictionary under its job name. -/
def add_caffe2_builds (jobs_dict : List (String × List (String × YamlVal))) :
    List (String × List (String × YamlVal)) :=
  gen_build_list.foldl (fun d c => dictInsert d c.get_name c.gen_yaml_tree) jobs_dict

/-- A workflow list entry: a bare job name, or a job name with a
"requires" list. -/
inductive WorkflowItem where
  | bare (name : String)
  | withRequires (name : String) (requires : List String)
deriving DecidableEq

/-- The job name of a workflow entry. -/
def WorkflowItem.jobName : WorkflowItem → String
  | .bare n => n
  | .withRequires n _ => n

/-- `get_caffe2_workflows`: drop the ubuntu14.04+gcc4.9 records, then emit
per record either the bare job name or, for test phases, the job name with
a requirement on the corresponding build-phase job name. -/
def get_caffe2_workflows : List WorkflowItem :=
  let filtered_configs := gen_build_list.filter
    (fun x => !(x.distro.str == "ubuntu14.04" && x.compiler.str == "gcc4.9"))
  filtered_configs.map (fun c =>
    if c.phase == "test"
    then WorkflowItem.withRequires c.get_name [c.construct_phase_name "build"]
    else WorkflowItem.bare c.get_name)

/-! ### Spec-side definitions used for refinement comparisons -/

/-- The (distribution, compiler, language) triples of the static tree, in
the tree's order. -/
def treeTriples : List (Ver × Ver × String) :=
  CONFIG_HIERARCHY.flatMap (fun dc =>
    dc.2.flatMap (fun cl => cl.2.map (fun l => (dc.1, cl.1, l))))

/-- Following the claim's words: a record is classified build-only exactly
when its compiler identifier is in the fixed set, or its distribution
belongs to the desktop (macos) platform family. -/
def buildOnlySpec (distro compiler : Ver) : Bool :=
  ["gcc4.9", "clang3.8", "clang3.9", "clang7", "android"].contains compiler.str
    || distro.name == "macos"

/-- Following the claim's words: for every (distribution, compiler,
language) triple of the tree and every phase, exactly one record, except
that a record with a non-"build" phase and a build-only classification is
omitted. -/
def specExpansion : List Conf :=
  treeTriples.flatMap (fun t =>
    PHASES.filterMap (fun p =>
      if p != "build" && buildOnlySpec t.1 t.2.1 then none
      else some ⟨t.2.2, t.1, t.2.1, p⟩))

/-- Following the claim's words: the runtime-library tag is omitted exactly
when the language variant is the interchange-format variant, or the
compiler name is in the exempt set, or the distribution identifier is one
of the two legacy identifiers. -/
def cudnnOmitSpec (c : Conf) : Bool :=
  c.language == "onnx_py2"
    || ["android", "mkl", "clang"].contains c.compiler.name
    || ["ubuntu14.04", "macos10.13"].contains c.distro.str

/-- The single hard-coded legacy combination removed by the workflow
builder: ubuntu14.04 with gcc4.9 (its only generated record is the build
one). -/
def legacyConf : Conf :=
  ⟨"py2", ⟨"ubuntu", some "14.04"⟩, ⟨"gcc", some "4.9"⟩, "build"⟩

/-- The "requires" list attached to a workflow entry ([] for a bare name). -/
def WorkflowItem.requiresList : WorkflowItem → List String
  | .bare _ => []
  | .withRequires _ rs => rs

/-- The value of an environment variable in a record's environment mapping. -/
def envValue (c : Conf) (k : String) : Option String :=
  List.lookup k c.gen_env_tuples

/-! ### Claims -/

/-- C1: distinct records produced by `gen_build_list` have distinct job
names: the list of all generated job names has no duplicate. -/
theorem generated_job_names_pairwise_distinct :
    (gen_build_list.map Conf.get_name).Nodup := by decide

/-- C2: the expansion equals, record for record, the spec-side expansion
(one record per tree triple and phase, omitting non-build phases of
build-only configurations); the build-only classification agrees with the
claim's fixed compiler set / desktop family predicate on every record; and
no (distribution, compiler, language, phase) combination is generated
twice. -/
theorem gen_build_list_matches_spec_expansion :
    gen_build_list = specExpansion ∧
    (∀ c : Conf, c.is_build_only = buildOnlySpec c.distro c.compiler) ∧
    (gen_build_list.map (fun c => (c.distro, c.compiler, c.language, c.phase))).Nodup := by
  refine ⟨by decide, ?_, by decide⟩
  intro c
  unfold Conf.is_build_only buildOnlySpec Conf.get_platform
  cases h : c.distro.name == "macos" <;> simp [h]

/-- C3: every test-phase record yields a workflow entry mapping its job
name to a "requires" list holding exactly the corresponding build-phase job
name, and that required name is a key of the jobs mapping produced by
`add_caffe2_builds`. -/
theorem workflow_test_entries_require_emitted_build_jobs :
    ∀ c ∈ gen_build_list, c.phase = "test" →
    WorkflowItem.withRequires c.get_name [c.construct_phase_name "build"]
        ∈ get_caffe2_workflows ∧
    (add_caffe2_builds []).any (fun p => p.1 == c.construct_phase_name "build") = true := by
  decide

/-- Witness for C3 at the ubuntu14.04/gcc4.8/py2 test record. -/
theorem workflow_test_entries_require_emitted_build_jobs_witness :
    WorkflowItem.withRequires
        (Conf.mk "py2" ⟨"ubuntu", some "14.04"⟩ ⟨"gcc", some "4.8"⟩ "test").get_name
        [(Conf.mk "py2" ⟨"ubuntu", some "14.04"⟩ ⟨"gcc", some "4.8"⟩ "test").construct_phase_name "build"]
      ∈ get_caffe2_workflows ∧
    (add_caffe2_builds []).any
        (fun p => p.1 ==
          (Conf.mk "py2" ⟨"ubuntu", some "14.04"⟩ ⟨"gcc", some "4.8"⟩ "test").construct_phase_name "build")
      = true :=
  workflow_test_entries_require_emitted_build_jobs
    (Conf.mk "py2" ⟨"ubuntu", some "14.04"⟩ ⟨"gcc", some "4.8"⟩ "test")
    (by decide) (by decide)

/-- C4: exactly one generated record carries the legacy ubuntu14.04+gcc4.9
combination; no workflow entry bears (or requires) its job name; yet its
job is present in the raw jobs mapping produced by `add_caffe2_builds`. -/
theorem legacy_pair_removed_from_workflows_but_in_jobs :
    gen_build_list.filter
        (fun c => c.distro.str == "ubuntu14.04" && c.compiler.str == "gcc4.9")
      = [legacyConf] ∧
    (∀ item ∈ get_caffe2_workflows,
      item.jobName ≠ legacyConf.get_name ∧ legacyConf.get_name ∉ item.requiresList) ∧
    (add_caffe2_builds []).any (fun p => p.1 == legacyConf.get_name) = true := by
  decide

/-- Witness for C4 at the first workflow entry. -/
theorem legacy_pair_removed_from_workflows_but_in_jobs_witness :
    (WorkflowItem.bare "caffe2_py2_gcc4_8_ubuntu14_04_build").jobName
        ≠ legacyConf.get_name ∧
    legacyConf.get_name
        ∉ (WorkflowItem.bare "caffe2_py2_gcc4_8_ubuntu14_04_build").requiresList :=
  legacy_pair_removed_from_workflows_but_in_jobs.2.1
    (WorkflowItem.bare "caffe2_py2_gcc4_8_ubuntu14_04_build") (by decide)

/-- C5: every record's job name is the components caffe2 / language /
compiler / conditional cudnn tag / distribution / phase joined in that
order with "_", with dots replaced by underscores. -/
theorem job_name_is_joined_components :
    ∀ c : Conf,
    c.get_name = replaceDots (String.intercalate "_"
      (["caffe2", c.language, c.compiler.str]
        ++ c.get_cudnn_insertion ++ [c.distro.str, c.phase])) := by
  intro c
  unfold Conf.get_name Conf.construct_phase_name Conf.get_build_name_root_parts
    Conf.get_build_name_middle_parts
  simp [List.append_assoc]

set_option maxRecDepth 100000 in
/-- C6: the cudnn tag is inserted exactly when the claim's omission
predicate (interchange variant / exempt compiler names / two legacy distro
identifiers) is false, and on every generated record that single predicate
decides the tag's presence in the name-middle parts, in the job name and in
the docker image reference. -/
theorem cudnn_tag_single_predicate :
    (∀ c : Conf,
      c.get_cudnn_insertion = if cudnnOmitSpec c then [] else ["cudnn7"]) ∧
    (∀ c ∈ gen_build_list,
      (("cudnn7" ∈ c.get_build_name_middle_parts) ↔ cudnnOmitSpec c = false) ∧
      (("cudnn7".data <:+: c.get_name.data) ↔ cudnnOmitSpec c = false) ∧
      (("cudnn7".data <:+: c.gen_docker_image.data) ↔ cudnnOmitSpec c = false)) := by
  exact ⟨fun c => rfl, by decide⟩

set_option maxRecDepth 100000 in
/-- Witness for C6 at the ubuntu16.04/cuda9.0/py2 build record. -/
theorem cudnn_tag_single_predicate_witness :
    (("cudnn7" ∈ (Conf.mk "py2" ⟨"ubuntu", some "16.04"⟩ ⟨"cuda", some "9.0"⟩ "build").get_build_name_middle_parts)
        ↔ cudnnOmitSpec (Conf.mk "py2" ⟨"ubuntu", some "16.04"⟩ ⟨"cuda", some "9.0"⟩ "build") = false) ∧
    (("cudnn7".data <:+: (Conf.mk "py2" ⟨"ubuntu", some "16.04"⟩ ⟨"cuda", some "9.0"⟩ "build").get_name.data)
        ↔ cudnnOmitSpec (Conf.mk "py2" ⟨"ubuntu", some "16.04"⟩ ⟨"cuda", some "9.0"⟩ "build") = false) ∧
    (("cudnn7".data <:+: (Conf.mk "py2" ⟨"ubuntu", some "16.04"⟩ ⟨"cuda", some "9.0"⟩ "build").gen_docker_image.data)
        ↔ cudnnOmitSpec (Conf.mk "py2" ⟨"ubuntu", some "16.04"⟩ ⟨"cuda", some "9.0"⟩ "build") = false) :=
  cudnn_tag_single_predicate.2
    (Conf.mk "py2" ⟨"ubuntu", some "16.04"⟩ ⟨"cuda", some "9.0"⟩ "build") (by decide)

set_option maxRecDepth 100000 in
/-- C7: every generated record's environment mapping has the
BUILD_ENVIRONMENT key; BUILD_IOS exactly for the ios compiler;
USE_CUDA_DOCKER_RUNTIME exactly for test phases of the cuda compiler;
DOCKER_IMAGE exactly off the macos platform; BUILD_ONLY exactly for
build-only records off the macos platform; and the two interpreter
variables, with values "system" and "2", exactly on the macos platform. -/
theorem environment_block_conditional_keys : ∀ c ∈ gen_build_list,
    (c.gen_env_tuples.map Prod.fst).contains "BUILD_ENVIRONMENT" = true ∧
    (c.gen_env_tuples.map Prod.fst).contains "BUILD_IOS" = (c.compiler.name == "ios") ∧
    (c.gen_env_tuples.map Prod.fst).contains "USE_CUDA_DOCKER_RUNTIME"
      = (c.phase == "test" && c.compiler.name == "cuda") ∧
    (c.gen_env_tuples.map Prod.fst).contains "DOCKER_IMAGE"
      = !(c.get_platform == "macos") ∧
    (c.gen_env_tuples.map Prod.fst).contains "BUILD_ONLY"
      = (c.is_build_only && !(c.get_platform == "macos")) ∧
    ((("PYTHON_INSTALLATION", quote "system") ∈ c.gen_env_tuples)
      ↔ c.get_platform = "macos") ∧
    ((("PYTHON_VERSION", quote "2") ∈ c.gen_env_tuples)
      ↔ c.get_platform = "macos") := by
  decide

set_option maxRecDepth 100000 in
/-- Witness for C7 at the macos10.13/ios/py2 build record (the claim's
concrete scenario: cross-compile flag present, interpreter variables
present, no image reference). -/
theorem environment_block_conditional_keys_witness :
    ((Conf.mk "py2" ⟨"macos", some "10.13"⟩ ⟨"ios", none⟩ "build").gen_env_tuples.map Prod.fst).contains "BUILD_ENVIRONMENT" = true ∧
    ((Conf.mk "py2" ⟨"macos", some "10.13"⟩ ⟨"ios", none⟩ "build").gen_env_tuples.map Prod.fst).contains "BUILD_IOS"
      = ((Conf.mk "py2" ⟨"macos", some "10.13"⟩ ⟨"ios", none⟩ "build").compiler.name == "ios") ∧
    ((Conf.mk "py2" ⟨"macos", some "10.13"⟩ ⟨"ios", none⟩ "build").gen_env_tuples.map Prod.fst).contains "USE_CUDA_DOCKER_RUNTIME"
      = ((Conf.mk "py2" ⟨"macos", some "10.13"⟩ ⟨"ios", none⟩ "build").phase == "test"
          && (Conf.mk "py2" ⟨"macos", some "10.13"⟩ ⟨"ios", none⟩ "build").compiler.name == "cuda") ∧
    ((Conf.mk "py2" ⟨"macos", some "10.13"⟩ ⟨"ios", none⟩ "build").gen_env_tuples.map Prod.fst).contains "DOCKER_IMAGE"
      = !((Conf.mk "py2" ⟨"macos", some "10.13"⟩ ⟨"ios", none⟩ "build").get_platform == "macos") ∧
    ((Conf.mk "py2" ⟨"macos", some "10.13"⟩ ⟨"ios", none⟩ "build").gen_env_tuples.map Prod.fst).contains "BUILD_ONLY"
      = ((Conf.mk "py2" ⟨"macos", some "10.13"⟩ ⟨"ios", none⟩ "build").is_build_only
          && !((Conf.mk "py2" ⟨"macos", some "10.13"⟩ ⟨"ios", none⟩ "build").get_platform == "macos")) ∧
    ((("PYTHON_INSTALLATION", quote "system") ∈ (Conf.mk "py2" ⟨"macos", some "10.13"⟩ ⟨"ios", none⟩ "build").gen_env_tuples)
      ↔ (Conf.mk "py2" ⟨"macos", some "10.13"⟩ ⟨"ios", none⟩ "build").get_platform = "macos") ∧
    ((("PYTHON_VERSION", quote "2") ∈ (Conf.mk "py2" ⟨"macos", some "10.13"⟩ ⟨"ios", none⟩ "build").gen_env_tuples)
      ↔ (Conf.mk "py2" ⟨"macos", some "10.13"⟩ ⟨"ios", none⟩ "build").get_platform = "macos") :=
  environment_block_conditional_keys
    (Conf.mk "py2" ⟨"macos", some "10.13"⟩ ⟨"ios", none⟩ "build") (by decide)

/-- C8: a record's job definition carries a resource class exactly when its
phase is "test", and that class is "large" for non-cuda compilers and
"gpu.medium" for cuda. -/
theorem resource_class_for_test_phase : ∀ c : Conf,
    List.lookup "resource_class" c.gen_yaml_tree
      = (if c.phase == "test"
         then some (YamlVal.str (if c.compiler.name != "cuda" then "large" else "gpu.medium"))
         else none) := by
  intro c
  cases h : c.phase == "test" <;>
    simp [Conf.gen_yaml_tree, h, List.lookup]

set_option maxRecDepth 100000 in
/-- C9: on every generated record, BUILD_ENVIRONMENT is the first key of
the environment mapping, and its value starts and ends with a double quote
exactly when the distribution is not macos (macos values carry no quote
character at all). -/
theorem build_environment_first_and_quoting : ∀ c ∈ gen_build_list,
    c.gen_env_tuples.head?.map Prod.fst = some "BUILD_ENVIRONMENT" ∧
    (envValue c "BUILD_ENVIRONMENT").map
        (fun v => v.data.head? == some '"' && v.data.getLast? == some '"')
      = some (!(c.distro.name == "macos")) ∧
    (envValue c "BUILD_ENVIRONMENT").map (fun v => v.data.contains '"')
      = some (!(c.distro.name == "macos")) := by
  decide

set_option maxRecDepth 100000 in
/-- Witness for C9 at the macos10.13/system/py2 build record. -/
theorem build_environment_first_and_quoting_witness :
    (Conf.mk "py2" ⟨"macos", some "10.13"⟩ ⟨"system", none⟩ "build").gen_env_tuples.head?.map Prod.fst
      = some "BUILD_ENVIRONMENT" ∧
    (envValue (Conf.mk "py2" ⟨"macos", some "10.13"⟩ ⟨"system", none⟩ "build") "BUILD_ENVIRONMENT").map
        (fun v => v.data.head? == some '"' && v.data.getLast? == some '"')
      = some (!((Conf.mk "py2" ⟨"macos", some "10.13"⟩ ⟨"system", none⟩ "build").distro.name == "macos")) ∧
    (envValue (Conf.mk "py2" ⟨"macos", some "10.13"⟩ ⟨"system", none⟩ "build") "BUILD_ENVIRONMENT").map
        (fun v => v.data.contains '"')
      = some (!((Conf.mk "py2" ⟨"macos", some "10.13"⟩ ⟨"system", none⟩ "build").distro.name == "macos")) :=
  build_environment_first_and_quoting
    (Conf.mk "py2" ⟨"macos", some "10.13"⟩ ⟨"system", none⟩ "build") (by decide)

/-- Stepping a `List.lookup` past a head entry whose key differs. -/
lemma lookup_cons_eq_false {β : Type} (p : String × β) (t : List (String × β))
    (k : String) (h : (k == p.1) = false) :
    List.lookup k (p :: t) = List.lookup k t := by
  cases p with
  | mk a b => simp [List.lookup, h]

/-- Replacing the value stored under one key leaves lookups of other keys
unchanged. -/
lemma lookup_map_replace {β : Type} (t : List (String × β)) (k k' : String) (v : β)
    (h : k ≠ k') :
    List.lookup k (t.map (fun p => if p.1 == k' then (k', v) else p)) = List.lookup k t := by
  have hkk : (k == k') = false := by simp [h]
  induction t with
  | nil => rfl
  | cons p t ih =>
    cases hp : p.1 == k' with
    | true =>
      have hp' : p.1 = k' := by simpa using hp
      have hkp : (k == p.1) = false := by simp [hp', h]
      simp only [List.map_cons, hp, if_true]
      rw [lookup_cons_eq_false _ _ _ hkk, lookup_cons_eq_false _ _ _ hkp]
      exact ih
    | false =>
      simp only [List.map_cons, hp]
      rw [if_neg Bool.false_ne_true]
      cases hkp : k == p.1 with
      | true =>
        cases p with
        | mk a b => simp [List.lookup, hkp]
      | false =>
        rw [lookup_cons_eq_false _ _ _ hkp, lookup_cons_eq_false _ _ _ hkp]
        exact ih

/-- Appending a single entry with a different key leaves lookups unchanged. -/
lemma lookup_append_singleton {β : Type} (t : List (String × β)) (k k' : String) (v : β)
    (h : k ≠ k') :
    List.lookup k (t ++ [(k', v)]) = List.lookup k t := by
  have hkk : (k == k') = false := by simp [h]
  induction t with
  | nil => simp [List.lookup, hkk]
  | cons p t ih =>
    cases hkp : k == p.1 with
    | true =>
      cases p with
      | mk a b => simp [List.lookup, hkp]
    | false =>
      rw [List.cons_append, lookup_cons_eq_false _ _ _ hkp,
        lookup_cons_eq_false _ _ _ hkp]
      exact ih

/-- `dictInsert` never removes a key that was present. -/
lemma dictInsert_any_mono {β : Type} (d : List (String × β)) (k k' : String) (v : β)
    (h : d.any (fun p => p.1 == k) = true) :
    (dictInsert d k' v).any (fun p => p.1 == k) = true := by
  unfold dictInsert
  split
  · simp only [List.any_map, List.any_eq_true] at h ⊢
    obtain ⟨p, hp, hpk⟩ := h
    refine ⟨p, hp, ?_⟩
    by_cases hp' : p.1 = k'
    · have hk : p.1 = k := by simpa using hpk
      simp [Function.comp, hp', ← hk]
    · simp [Function.comp, hp', hpk]
  · simp only [List.any_append, List.any_eq_true, Bool.or_eq_true] at h ⊢
    exact Or.inl h

/-- `dictInsert` leaves lookups of other keys unchanged. -/
lemma dictInsert_lookup_ne {β : Type} (d : List (String × β)) (k k' : String) (v : β)
    (h : k ≠ k') :
    List.lookup k (dictInsert d k' v) = List.lookup k d := by
  unfold dictInsert
  split
  · exact lookup_map_replace d k k' v h
  · exact lookup_append_singleton d k k' v h

/-- Folding `dictInsert` over any record list keeps every pre-existing key. -/
lemma foldl_dictInsert_any (cs : List Conf) :
    ∀ (d : List (String × List (String × YamlVal))) (k : String),
    d.any (fun p => p.1 == k) = true →
    (cs.foldl (fun d c => dictInsert d c.get_name c.gen_yaml_tree) d).any
      (fun p => p.1 == k) = true := by
  induction cs with
  | nil => intro d k h; exact h
  | cons c cs ih =>
    intro d k h
    exact ih _ k (dictInsert_any_mono d k c.get_name c.gen_yaml_tree h)

/-- Folding `dictInsert` over a record list leaves lookups of keys that are
not generated names unchanged. -/
lemma foldl_dictInsert_lookup (cs : List Conf) :
    ∀ (d : List (String × List (String × YamlVal))) (k : String),
    (cs.map Conf.get_name).contains k = false →
    List.lookup k (cs.foldl (fun d c => dictInsert d c.get_name c.gen_yaml_tree) d)
      = List.lookup k d := by
  induction cs with
  | nil => intro d k _; rfl
  | cons c cs ih =>
    intro d k h
    simp only [List.map_cons, List.contains_cons, Bool.or_eq_false_iff] at h
    have hne : k ≠ c.get_name := by
      intro he
      simp [he] at h
    calc List.lookup k ((c :: cs).foldl
            (fun d c => dictInsert d c.get_name c.gen_yaml_tree) d)
        = List.lookup k (cs.foldl (fun d c => dictInsert d c.get_name c.gen_yaml_tree)
            (dictInsert d c.get_name c.gen_yaml_tree)) := rfl
      _ = List.lookup k (dictInsert d c.get_name c.gen_yaml_tree) := ih _ k h.2
      _ = List.lookup k d := dictInsert_lookup_ne _ _ _ _ hne

/-- C10: `add_caffe2_builds` only adds entries: every key present in the
input dictionary is still present afterwards, and every key that is not a
generated job name keeps its previous value. -/
theorem add_caffe2_builds_only_adds :
    ∀ (d : List (String × List (String × YamlVal))) (k : String),
    (d.any (fun p => p.1 == k) = true →
      (add_caffe2_builds d).any (fun p => p.1 == k) = true) ∧
    ((gen_build_list.map Conf.get_name).contains k = false →
      List.lookup k (add_caffe2_builds d) = List.lookup k d) := by
  intro d k
  exact ⟨foldl_dictInsert_any gen_build_list d k,
         foldl_dictInsert_lookup gen_build_list d k⟩

/-- Witness for C10 on a dictionary with one prior entry. -/
theorem add_caffe2_builds_only_adds_witness :
    ((add_caffe2_builds [("prior_job", [])]).any (fun p => p.1 == "prior_job") = true) ∧
    (List.lookup "prior_job" (add_caffe2_builds [("prior_job", [])])
      = List.lookup "prior_job" [("prior_job", [])]) :=
  ⟨(add_caffe2_builds_only_adds [("prior_job", [])] "prior_job").1 (by decide),
   (add_caffe2_builds_only_adds [("prior_job", [])] "prior_job").2 (by decide)⟩
